import Mathlib

/-!
Verification of `pydantic_sql_orm_extension` (example application
`src/pydantic_sql_orm_extension/examples/basic/app.py`).

The repository ships only the example application; the engine classes
`BaseCrud` and `OutputMixin` that it imports are not part of the shipped
sources.  Where a definition embeds the engine it is therefore modelled
from the specification (each such definition says so in its doc comment);
the declarations of `app.py` (the models, the `__related_kls__`
configuration, and the route handlers) are embedded from the source file
itself.
-/

namespace PydanticSqlOrm

/-- A scalar column value (integer, string or boolean column types are the
ones used by the example models). -/
inductive Val : Type where
  | vint : Int → Val
  | vstr : String → Val
  | vbool : Bool → Val
deriving DecidableEq, Repr

/-- A record of column assignments: column name to scalar value.  -/
abbrev Row := List (String × Val)

/-- Look up a column of a row. -/
def Row.col (r : Row) (k : String) : Option Val :=
  match r with
  | [] => none
  | (k', v) :: rest => if k' = k then some v else Row.col rest k

/-- Set a column of a row (overwriting the first existing binding, or
appending a new one). -/
def Row.setCol (r : Row) (k : String) (v : Val) : Row :=
  match r with
  | [] => [(k, v)]
  | (k', v') :: rest =>
    if k' = k then (k, v) :: rest else (k', v') :: Row.setCol rest k v

/-- One storage table: an autoincrement counter for the identity column and
the stored rows, each carrying its assigned identity, in insertion order. -/
structure Table where
  nextId : Nat
  rows : List (Nat × Row)
deriving DecidableEq, Repr

/-- The storage database: a mapping from table name to table. -/
abbrev DB := List (String × Table)

/-- Fetch a table by name (a missing table reads as empty, as after
`db.create_all`). -/
def DB.table (db : DB) (n : String) : Table :=
  match db with
  | [] => ⟨1, []⟩
  | (m, t) :: rest => if m = n then t else DB.table rest n

/-- Replace a table by name. -/
def DB.setTable (db : DB) (n : String) (t : Table) : DB :=
  match db with
  | [] => [(n, t)]
  | (m, u) :: rest =>
    if m = n then (n, t) :: rest else (m, u) :: DB.setTable rest n t

/-- Modelled from the spec: the Entity Descriptor of §3 — static metadata of
one storage entity (the `db.Model` classes of `app.py`): its table name,
identity (primary-key) field, and plain columns. -/
structure EntityDescriptor where
  table_name : String
  identity_field : String
  columns : List String
deriving DecidableEq, Repr

/-- A `one_to_many` relation entry exactly as configured in
`__related_kls__` in `app.py` (keys `model_kls` and `linked_field`). -/
structure OneToManyDesc where
  model_kls : EntityDescriptor
  linked_field : String
deriving DecidableEq, Repr

/-- A `many_to_many` relation entry exactly as configured in
`__related_kls__` in `app.py` (keys `model_kls`, `second_kls` and
`linked_fields`, the latter an ordered pair of join-table columns). -/
structure ManyToManyDesc where
  model_kls : EntityDescriptor
  second_kls : EntityDescriptor
  linked_fields : String × String
deriving DecidableEq, Repr

/-- Modelled from the spec: the Relation Descriptor Registry of §4.1 for one
schema model — the `__related_kls__` class attribute, split by relation
kind, each kind mapping a relation field name to its descriptor. -/
structure RelatedKls where
  one_to_many : List (String × OneToManyDesc)
  many_to_many : List (String × ManyToManyDesc)
deriving DecidableEq, Repr

/-- The empty registry (schema models such as `DormsBase` and `CoursesBase`
declare no `__related_kls__`). -/
def RelatedKls.empty : RelatedKls := ⟨[], []⟩

/-- Modelled from the spec: the error taxonomy of §7 for the CRUD engine. -/
inductive CrudError : Type where
  | ConfigurationError : CrudError
  | NotFoundError : CrudError
  | AmbiguousUpdateError : CrudError
  | StorageConstraintError : CrudError
deriving DecidableEq, Repr

mutual
/-- Modelled from the spec: a validated schema-model instance entering
`create` (§4.2): the target entity and registry it declares (the
`__model_kls__` / `__related_kls__` class attributes), its populated plain
columns, and its populated relation fields (`one_to_many` fields each hold
one nested value, `many_to_many` fields a sequence of them). -/
inductive CreateInput : Type where
  | mk : EntityDescriptor → RelatedKls → Row →
      List (String × NestedVal) → List (String × List NestedVal) → CreateInput

/-- Modelled from the spec: one populated nested relation value (§4.3): it
either carries only an identity (link existing) or a full nested schema
instance with no identity (create new, then link). -/
inductive NestedVal : Type where
  | byId : Nat → NestedVal
  | byValue : CreateInput → NestedVal
end

/-- The entity descriptor a create input declares. -/
def CreateInput.desc : CreateInput → EntityDescriptor
  | .mk d _ _ _ _ => d

/-- The populated plain columns of a create input. -/
def CreateInput.plain : CreateInput → Row
  | .mk _ _ p _ _ => p

/-- Whether a table holds a row with the given identity. -/
def Table.hasId (t : Table) (i : Nat) : Bool :=
  t.rows.any (fun r => r.1 = i)

/-- Set one column of the row with the given identity, leaving every other
row untouched. -/
def Table.setColOf (t : Table) (i : Nat) (k : String) (v : Val) : Table :=
  ⟨t.nextId, t.rows.map (fun r => if r.1 = i then (r.1, r.2.setCol k v) else r)⟩

mutual
/-- Modelled from the spec: the recursive part of `create` (§4.2), run
inside the call's storage session.  It inserts the entity built from the
plain columns (identity assigned post-insert), then resolves every
populated relation field, threading the session state. -/
def createRaw : CreateInput → DB → Except CrudError (Nat × DB)
  | .mk desc reg plain oneRel manyRel, db =>
    let t0 := db.table desc.table_name
    let pid := t0.nextId
    let db1 := db.setTable desc.table_name ⟨t0.nextId + 1, t0.rows ++ [(pid, plain)]⟩
    match resolveOne desc reg pid oneRel db1 with
    | .error e => .error e
    | .ok db2 =>
      match resolveMany reg pid manyRel db2 with
      | .error e => .error e
      | .ok db3 => .ok (pid, db3)

/-- Modelled from the spec: resolution of the populated `one_to_many`
fields of one instance (§4.2): look up the field's descriptor
(`ConfigurationError` if it has none), resolve the nested value to a child
identity, and set `linked_field` on the parent entity to it. -/
def resolveOne (desc : EntityDescriptor) (reg : RelatedKls) (pid : Nat) :
    List (String × NestedVal) → DB → Except CrudError DB
  | [], db => .ok db
  | (f, nv) :: rest, db =>
    match reg.one_to_many.lookup f with
    | none => .error .ConfigurationError
    | some d =>
      match resolveNested d.model_kls nv db with
      | .error e => .error e
      | .ok (cid, db') =>
        resolveOne desc reg pid rest
          (db'.setTable desc.table_name
            ((db'.table desc.table_name).setColOf pid d.linked_field (.vint cid)))

/-- Modelled from the spec: resolution of the populated `many_to_many`
fields of one instance (§4.2): look up the field's descriptor
(`ConfigurationError` if it has none) and link every element of the nested
sequence. -/
def resolveMany (reg : RelatedKls) (pid : Nat) :
    List (String × List NestedVal) → DB → Except CrudError DB
  | [], db => .ok db
  | (f, nvs) :: rest, db =>
    match reg.many_to_many.lookup f with
    | none => .error .ConfigurationError
    | some d =>
      match resolveManyVals d pid nvs db with
      | .error e => .error e
      | .ok db' => resolveMany reg pid rest db'

/-- Modelled from the spec: for each element of a `many_to_many` sequence
(§4.2), resolve (create-if-needed) the target entity, then insert one
join-entity row with `linked_fields = (parent.identity, target.identity)`. -/
def resolveManyVals (d : ManyToManyDesc) (pid : Nat) :
    List NestedVal → DB → Except CrudError DB
  | [], db => .ok db
  | nv :: rest, db =>
    match resolveNested d.model_kls nv db with
    | .error e => .error e
    | .ok (tid, db') =>
      let jt := db'.table d.second_kls.table_name
      resolveManyVals d pid rest
        (db'.setTable d.second_kls.table_name
          ⟨jt.nextId + 1,
           jt.rows ++ [(jt.nextId,
             [(d.linked_fields.1, .vint pid), (d.linked_fields.2, .vint tid)])]⟩)

/-- Modelled from the spec: the Relation Resolver policy of §4.3 for one
nested value: a value that supplies only an identity links to the existing
row (`NotFoundError` if the target row does not exist, §7); a full nested
schema instance is recursively created first. -/
def resolveNested (target : EntityDescriptor) :
    NestedVal → DB → Except CrudError (Nat × DB)
  | .byId i, db =>
    if (db.table target.table_name).hasId i then .ok (i, db)
    else .error .NotFoundError
  | .byValue inp, db => createRaw inp db
end

/-- Modelled from the spec: the top-level `create` operation's transaction
boundary (§5): all recursive relation resolution happens within one scoped
session; the engine commits only when the whole relation graph resolved,
otherwise it rolls the session back and the database is left unchanged. -/
def create (inp : CreateInput) (db : DB) : Except CrudError Nat × DB :=
  match createRaw inp db with
  | .ok (pid, db') => (.ok pid, db')
  | .error e => (.error e, db)

/-- A plain value tree, the output shape of the serializer (§4.4): an
atom, an object of named fields, or an array. -/
inductive Tree : Type where
  | atom : Val → Tree
  | obj : List (String × Tree) → Tree
  | arr : List Tree → Tree

/-- Modelled from the spec: one declared output relation of an entity, as
walked by the Output Serializer (§4.4) — the `db.relationship` declarations
of `app.py`.  `single` is a local foreign key to one target row
(`Students.dorm`), `reverse` collects the target rows whose foreign key
points back at this row (`Dorms.all_students`), and `viaJoin` goes through
a join table (`Students.courses`). -/
inductive SerRel : Type where
  | single : String → String → SerRel
  | reverse : String → String → SerRel
  | viaJoin : String → String → String → String → SerRel
deriving DecidableEq, Repr

/-- The serializer-side relation registry: table name to its declared
output relation fields, in declaration order. -/
abbrev SerReg := List (String × List (String × SerRel))

/-- The target rows of a `reverse` relation: all rows of the target table
whose `their_linked_field` column holds this row's identity. -/
def reverseIds (db : DB) (tf their_lf : String) (i : Nat) : List Nat :=
  ((db.table tf).rows.filter
      (fun q => decide (q.2.col their_lf = some (Val.vint i)))).map (fun q => q.1)

/-- The target rows of a `viaJoin` relation: for each join-table row whose
local link column holds this row's identity, the identity stored in the
target link column. -/
def joinTargetIds (db : DB) (jt myCol tCol : String) (i : Nat) : List Nat :=
  ((db.table jt).rows.filter
      (fun q => decide (q.2.col myCol = some (Val.vint i)))).filterMap
    (fun q => match q.2.col tCol with
      | some (.vint c) => some c.toNat
      | _ => none)

mutual
/-- Modelled from the spec: the Output Serializer's recursive entity walk
(§4.4).  `allowed` is the complement of the visited set for the current
traversal path: the `(entity_type, identity)` pairs the walk may still
enter; the caller removes the current entity before the call.  The output
object holds the identity field, the stored columns, and the declared
relation fields. -/
def serializeVisit (db : DB) (sreg : SerReg) (idf : String → String)
    (allowed : List (String × Nat)) (etype : String) (i : Nat) : Tree :=
  Tree.obj
    ((idf etype, Tree.atom (.vint i))
      :: (((db.table etype).rows.lookup i).getD []).map
           (fun kv => (kv.1, Tree.atom kv.2))
      ++ serializeFields db sreg idf allowed ((sreg.lookup etype).getD []) i
           (((db.table etype).rows.lookup i).getD []))
termination_by (allowed.length, 2, 0)
decreasing_by
  all_goals exact Prod.Lex.right _ (Prod.Lex.left _ _ (by omega))

/-- Modelled from the spec: serialization of the declared relation fields
of one entity (§4.4).  A relation pointing at an entity already on the
traversal path is not recursed into: a `single` target off the path is
omitted, and sequence-valued relations drop the visited elements. -/
def serializeFields (db : DB) (sreg : SerReg) (idf : String → String)
    (allowed : List (String × Nat)) :
    List (String × SerRel) → Nat → Row → List (String × Tree)
  | [], _, _ => []
  | (f, .single tf lf) :: rest, i, r =>
    (match r.col lf with
     | some (.vint c) =>
       if h : (tf, c.toNat) ∈ allowed then
         [(f, serializeVisit db sreg idf (allowed.erase (tf, c.toNat)) tf c.toNat)]
       else []
     | _ => []) ++ serializeFields db sreg idf allowed rest i r
  | (f, .reverse tf their_lf) :: rest, i, r =>
    (f, Tree.arr (serializeList db sreg idf allowed tf (reverseIds db tf their_lf i)))
      :: serializeFields db sreg idf allowed rest i r
  | (f, .viaJoin jt myCol tCol tf) :: rest, i, r =>
    (f, Tree.arr (serializeList db sreg idf allowed tf (joinTargetIds db jt myCol tCol i)))
      :: serializeFields db sreg idf allowed rest i r
termination_by l _ _ => (allowed.length, 1, l.length)
decreasing_by
  all_goals simp_wf
  all_goals simp [Prod.lex_iff, *]
  all_goals exact List.length_pos_of_mem h

/-- Modelled from the spec: serialization of a sequence-valued relation
(§4.4), in storage retrieval order, skipping every target already on the
traversal path. -/
def serializeList (db : DB) (sreg : SerReg) (idf : String → String)
    (allowed : List (String × Nat)) (tf : String) : List Nat → List Tree
  | [] => []
  | i :: rest =>
    (if h : (tf, i) ∈ allowed then
       [serializeVisit db sreg idf (allowed.erase (tf, i)) tf i]
     else []) ++ serializeList db sreg idf allowed tf rest
termination_by l => (allowed.length, 0, l.length)
decreasing_by
  all_goals simp_wf
  all_goals simp [Prod.lex_iff, *]
  all_goals exact List.length_pos_of_mem h
end

/-- Every `(table_name, identity)` pair stored in the database: the initial
allowed set of one top-level serialize call. -/
def DB.allPairs (db : DB) : List (String × Nat) :=
  (db.map (fun nt => nt.2.rows.map (fun r => (nt.1, r.1)))).flatten

/-- Scalar-only serialization of one stored entity: the identity field
followed by the stored columns, relation fields omitted. -/
def serializeScalar (db : DB) (idf : String → String) (etype : String)
    (i : Nat) : Tree :=
  Tree.obj
    ((idf etype, Tree.atom (.vint i))
      :: (((db.table etype).rows.lookup i).getD []).map
           (fun kv => (kv.1, Tree.atom kv.2)))

/-- Modelled from the spec: one top-level `serialize` call (§4.4): with
relation inclusion requested it walks the declared relations guarded by the
per-call visited set (the current entity is marked visited from the
start); otherwise it emits the scalar fields only. -/
def serialize (db : DB) (sreg : SerReg) (idf : String → String)
    (etype : String) (i : Nat) (rel : Bool) : Tree :=
  if rel then serializeVisit db sreg idf (db.allPairs.erase (etype, i)) etype i
  else serializeScalar db idf etype i

/-- Modelled from the spec: whether one stored row satisfies every equality
constraint of the filter criteria built from the populated scalar fields of
a filter instance (§4.2, §3): a populated identity field constrains the
assigned identity, any other populated field constrains its column, and
unset fields impose no constraint. -/
def rowMatches (desc : EntityDescriptor) (flt : Row) (i : Nat) (r : Row) : Bool :=
  flt.all (fun kv =>
    decide (if kv.1 = desc.identity_field then kv.2 = Val.vint i
            else r.col kv.1 = some kv.2))

/-- Modelled from the spec: the storage query of `get_objects` (§4.2): all
stored rows of the entity's table matching the filter criteria, in storage
order. -/
def selectRows (desc : EntityDescriptor) (flt : Row) (db : DB) : List (Nat × Row) :=
  (db.table desc.table_name).rows.filter (fun r => rowMatches desc flt r.1 r.2)

/-- Modelled from the spec: the `get_objects` operation (§4.2): serialize
every matching storage entity, `rel` controlling relation embedding; an
empty result is an empty sequence, never an error. -/
def get_objects (desc : EntityDescriptor) (sreg : SerReg) (idf : String → String)
    (flt : Row) (rel : Bool) (db : DB) : List Tree :=
  (selectRows desc flt db).map (fun r => serialize db sreg idf desc.table_name r.1 rel)

/-- Apply every populated plain field of an update instance as a column
assignment (§4.2). -/
def applyAssigns (r : Row) (assigns : Row) : Row :=
  assigns.foldl (fun acc kv => acc.setCol kv.1 kv.2) r

/-- Modelled from the spec: the recursive part of `update` (§4.2), run
inside the call's storage session.  It locates the storage entities
matching `filter_fields` (`NotFoundError` on zero matches,
`AmbiguousUpdateError` on more than one, single-entity semantics being the
default), applies every populated plain field as a column assignment, then
re-resolves the populated relation fields exactly as in `create`
(additive). -/
def updateRaw (desc : EntityDescriptor) (reg : RelatedKls) (plain : Row)
    (oneRel : List (String × NestedVal)) (manyRel : List (String × List NestedVal))
    (filter_fields : Row) (db : DB) : Except CrudError (Nat × DB) :=
  match selectRows desc filter_fields db with
  | [] => .error .NotFoundError
  | [r0] =>
    let t := db.table desc.table_name
    let db1 := db.setTable desc.table_name
      ⟨t.nextId, t.rows.map (fun q => if q.1 = r0.1 then (q.1, applyAssigns q.2 plain) else q)⟩
    match resolveOne desc reg r0.1 oneRel db1 with
    | .error e => .error e
    | .ok db2 =>
      match resolveMany reg r0.1 manyRel db2 with
      | .error e => .error e
      | .ok db3 => .ok (r0.1, db3)
  | _ => .error .AmbiguousUpdateError

/-- Modelled from the spec: the top-level `update` operation's transaction
boundary (§5): commit only when the whole call resolved, otherwise roll
back, leaving the database unchanged. -/
def update (desc : EntityDescriptor) (reg : RelatedKls) (plain : Row)
    (oneRel : List (String × NestedVal)) (manyRel : List (String × List NestedVal))
    (filter_fields : Row) (db : DB) : Except CrudError Nat × DB :=
  match updateRaw desc reg plain oneRel manyRel filter_fields db with
  | .ok (pid, db') => (.ok pid, db')
  | .error e => (.error e, db)

mutual
/-- The number of object entries carrying a given key anywhere in a value
tree (used to count how often a serialized entity shape occurs). -/
def Tree.countKey : Tree → String → Nat
  | .atom _, _ => 0
  | .obj fs, k => countKeyFields fs k
  | .arr ts, k => countKeyArr ts k

/-- `Tree.countKey` over the entries of an object node. -/
def countKeyFields : List (String × Tree) → String → Nat
  | [], _ => 0
  | (f, t) :: rest, k =>
    (if f = k then 1 else 0) + Tree.countKey t k + countKeyFields rest k

/-- `Tree.countKey` over the elements of an array node. -/
def countKeyArr : List Tree → String → Nat
  | [], _ => 0
  | t :: rest, k => Tree.countKey t k + countKeyArr rest k
end

/-! ## The entities and schema models declared in `app.py` -/

/-- The `StudentsCourses` join entity of `app.py` (table
`students_courses`): autoincrement primary key `id` and the two foreign-key
columns `students_id` and `courses_id`. -/
def studentsCoursesDesc : EntityDescriptor :=
  ⟨"students_courses", "id", ["students_id", "courses_id"]⟩

/-- The `Students` entity of `app.py`: primary key `id` and columns `name`,
`is_admin`, `dorm_id`. -/
def studentsDesc : EntityDescriptor :=
  ⟨"students", "id", ["name", "is_admin", "dorm_id"]⟩

/-- The `Courses` entity of `app.py`: primary key `id` and columns `name`,
`faculty`, `major`. -/
def coursesDesc : EntityDescriptor :=
  ⟨"courses", "id", ["name", "faculty", "major"]⟩

/-- The `Dorms` entity of `app.py`: primary key `id` and column `name`. -/
def dormsDesc : EntityDescriptor :=
  ⟨"dorms", "id", ["name"]⟩

/-- The `StudentBase.__related_kls__` declaration of `app.py`: the `dorm`
field is `one_to_many` to `Dorms` over local column `dorm_id`; the
`courses` field is `many_to_many` to `Courses` through `StudentsCourses`
over the ordered pair `(students_id, courses_id)`. -/
def studentRelatedKls : RelatedKls :=
  ⟨[("dorm", ⟨dormsDesc, "dorm_id"⟩)],
   [("courses", ⟨coursesDesc, studentsCoursesDesc, ("students_id", "courses_id")⟩)]⟩

/-- The literal key structure of the `StudentBase.__related_kls__` dict in
`app.py`: for each relation kind, each configured field with the exact keys
its entry dict uses, in source order. -/
def relatedKlsEntryKeys : List (String × List (String × List String)) :=
  [("one_to_many", [("dorm", ["model_kls", "linked_field"])]),
   ("many_to_many", [("courses", ["model_kls", "second_kls", "linked_fields"])])]

/-- The serializer-side relation registry of the `app.py` models: the
`db.relationship` declarations — `Students.courses` (through the
`students_courses` table), `Students.dorm` (over `dorm_id`), and
`Dorms.all_students` (the students whose `dorm_id` points back). -/
def appSerReg : SerReg :=
  [("students",
     [("courses", .viaJoin "students_courses" "students_id" "courses_id" "courses"),
      ("dorm", .single "dorms" "dorm_id")]),
   ("dorms",
     [("all_students", .reverse "students" "dorm_id")])]

/-- Every `app.py` model uses `id` as its primary-key column. -/
def appIdField : String → String := fun _ => "id"

/-- The `DormsGetExtra` query schema of `app.py`: the optional `name`
filter inherited from `DormsGet` plus the optional `show_all_students`
flag. -/
structure DormsGetExtra where
  name : Option String
  show_all_students : Option Bool

/-- The filter a `DormsGet` instance contributes: its `name` field when
populated, nothing otherwise. -/
def dormsGetFilter (n : Option String) : Row :=
  match n with
  | some s => [("name", Val.vstr s)]
  | none => []

/-- The dorm rows a `/dorms/extra` request selects: `get_objects` filter
criteria built from the query data with `show_all_students` popped. -/
def dormRowsSelected (q : DormsGetExtra) (db : DB) : List (Nat × Row) :=
  selectRows dormsDesc (dormsGetFilter q.name) db

/-- The `get_dorm_extra` route handler of `app.py`: it pops
`show_all_students` from the query data, builds a `DormsGet` from the rest,
and calls `get_objects` with `_rel` set from the popped flag. -/
def get_dorm_extra (q : DormsGetExtra) (db : DB) : List Tree :=
  (dormRowsSelected q db).map
    (fun r => serialize db appSerReg appIdField "dorms" r.1
      (q.show_all_students.getD false))

/-! ## Concrete fixtures used as witnesses -/

/-- The join rows a `many_to_many` resolution inserts for a sequence of
target identities: consecutive autoincrement identities from `start`, each
row holding `(parent.identity, target.identity)` in the configured
`linked_fields` columns. -/
def joinRowsFor (d : ManyToManyDesc) (pid : Nat) (start : Nat) :
    List Nat → List (Nat × Row)
  | [] => []
  | tid :: rest =>
    (start, [(d.linked_fields.1, Val.vint pid), (d.linked_fields.2, Val.vint tid)])
      :: joinRowsFor d pid (start + 1) rest

/-- A database with one stored student, one dorm, one course, and no join
rows yet. -/
def dbOne : DB :=
  [("students",
     ⟨2, [(1, [("name", .vstr "Ada"), ("is_admin", .vbool false), ("dorm_id", .vint 1)])]⟩),
   ("dorms", ⟨2, [(1, [("name", .vstr "North")])]⟩),
   ("courses", ⟨2, [(1, [("name", .vstr "Math"), ("faculty", .vstr "Sci"), ("major", .vstr "M")])]⟩),
   ("students_courses", ⟨1, []⟩)]

/-- A database holding two students with the same name (used to exercise
the ambiguous-update failure). -/
def dbTwo : DB :=
  [("students",
     ⟨4, [(1, [("name", .vstr "Ada"), ("is_admin", .vbool false)]),
          (3, [("name", .vstr "Ada"), ("is_admin", .vbool true)])]⟩)]

/-- A database holding two students with distinct identities and names
(used to exercise the update frame property). -/
def dbUpd : DB :=
  [("students",
     ⟨4, [(1, [("name", .vstr "Ada"), ("is_admin", .vbool false)]),
          (3, [("name", .vstr "Bob"), ("is_admin", .vbool true)])]⟩),
   ("dorms", ⟨1, []⟩)]

/-- A database of one student and one dorm that mutually embed each other:
the student's `dorm_id` points at the dorm, and the dorm's `all_students`
collects that student — with every identity and every column value left
symbolic. -/
def dbAB (sid did : Nat) (sname dname : String) (adm : Bool) : DB :=
  [("students",
     ⟨sid + 1, [(sid, [("name", .vstr sname), ("is_admin", .vbool adm), ("dorm_id", .vint did)])]⟩),
   ("dorms", ⟨did + 1, [(did, [("name", .vstr dname)])]⟩),
   ("students_courses", ⟨1, []⟩)]

/-- A resolvable `many_to_many` target element: one given by identity must
exist in the target table; one given by value must be a full nested schema
instance (no relation fields of its own, as `CoursesCreate` in `app.py`)
whose table is not the join table. -/
def ManyTargetOk (d : ManyToManyDesc) (db : DB) : NestedVal → Prop
  | .byId i => (db.table d.model_kls.table_name).hasId i = true
  | .byValue (.mk ed _ _ oneRel manyRel) =>
    oneRel = [] ∧ manyRel = [] ∧ ed.table_name ≠ d.second_kls.table_name

/-- `db2` extends `db1`: every table keeps its stored rows as a prefix (the
engine only ever appends rows during relation resolution). -/
def rowsExtend (db2 db1 : DB) : Prop :=
  ∀ m, ∃ ext, (db2.table m).rows = (db1.table m).rows ++ ext

/-! ## Helper lemmas -/

theorem DB.table_setTable_self (db : DB) (n : String) (t : Table) :
    (db.setTable n t).table n = t := by
  induction db with
  | nil => simp [DB.setTable, DB.table]
  | cons p rest ih =>
    by_cases h : p.1 = n <;> simp [DB.setTable, DB.table, h, ih]

theorem DB.table_setTable_ne (db : DB) {m n : String} (h : m ≠ n) (t : Table) :
    (db.setTable n t).table m = db.table m := by
  have h1 : ¬(n = m) := fun hh => h hh.symm
  induction db with
  | nil => simp [DB.setTable, DB.table, h1]
  | cons p rest ih =>
    by_cases hp : p.1 = n
    · have h2 : ¬(p.1 = m) := by
        rw [hp]
        exact h1
      simp [DB.setTable, DB.table, hp, h1, h2]
    · by_cases hm : p.1 = m <;> simp [DB.setTable, DB.table, hp, hm, h, ih]

theorem DB.setTable_setTable (db : DB) (n : String) (t1 t2 : Table) :
    (db.setTable n t1).setTable n t2 = db.setTable n t2 := by
  induction db with
  | nil => simp [DB.setTable]
  | cons p rest ih =>
    by_cases h : p.1 = n <;> simp [DB.setTable, h, ih]

theorem Row.col_setCol_self (r : Row) (k : String) (v : Val) :
    (r.setCol k v).col k = some v := by
  induction r with
  | nil => simp [Row.setCol, Row.col]
  | cons p rest ih =>
    by_cases h : p.1 = k <;> simp [Row.setCol, Row.col, h, ih]

theorem Row.col_setCol_ne (r : Row) {k u : String} (h : u ≠ k) (v : Val) :
    (r.setCol k v).col u = r.col u := by
  have h1 : ¬(k = u) := fun hh => h hh.symm
  induction r with
  | nil => simp [Row.setCol, Row.col, h1]
  | cons p rest ih =>
    by_cases hp : p.1 = k
    · have h2 : ¬(p.1 = u) := by
        rw [hp]
        exact h1
      simp [Row.setCol, Row.col, hp, h1, h2]
    · by_cases hm : p.1 = u <;> simp [Row.setCol, Row.col, hp, hm, h, ih]

theorem applyAssigns_col_of_not_mem (assigns : Row) (r : Row) (k : String)
    (h : k ∉ assigns.map Prod.fst) : (applyAssigns r assigns).col k = r.col k := by
  induction assigns generalizing r with
  | nil => simp [applyAssigns]
  | cons p rest ih =>
    simp only [List.map_cons, List.mem_cons] at h
    push_neg at h
    simpa [applyAssigns] using
      (ih (r.setCol p.1 p.2) h.2).trans (Row.col_setCol_ne r (h.1) p.2)

theorem lookup_ids_append {l1 l2 : List (Nat × Row)} {i : Nat}
    (h : ∀ q ∈ l1, q.1 ≠ i) : List.lookup i (l1 ++ l2) = List.lookup i l2 := by
  induction l1 with
  | nil => rfl
  | cons q rest ih =>
    have hq : (i == q.1) = false := by
      simpa [beq_iff_eq] using fun hh => h q (List.mem_cons_self q rest) hh.symm
    simp only [List.cons_append, List.lookup, hq]
    exact ih (fun p hp => h p (List.mem_cons_of_mem q hp))

theorem map_setCol_fresh (i : Nat) (k : String) (v : Val) :
    ∀ l : List (Nat × Row), (∀ q ∈ l, q.1 ≠ i) →
      l.map (fun q => if q.1 = i then (q.1, q.2.setCol k v) else q) = l := by
  intro l
  induction l with
  | nil => intro _; rfl
  | cons q rest ih =>
    intro h
    simp only [List.map_cons]
    rw [if_neg (h q (List.mem_cons_self q rest)),
      ih (fun p hp => h p (List.mem_cons_of_mem q hp))]

theorem setColOf_rows_append_fresh (l : List (Nat × Row)) (i : Nat) (r : Row)
    (k : String) (v : Val) (h : ∀ q ∈ l, q.1 ≠ i) :
    (Table.setColOf ⟨i + 1, l ++ [(i, r)]⟩ i k v).rows = l ++ [(i, r.setCol k v)] := by
  simp [Table.setColOf, List.map_append, map_setCol_fresh i k v l h]

theorem rowsExtend_refl (db : DB) : rowsExtend db db :=
  fun _ => ⟨[], (List.append_nil _).symm⟩

theorem rowsExtend_trans {db3 db2 db1 : DB} (h32 : rowsExtend db3 db2)
    (h21 : rowsExtend db2 db1) : rowsExtend db3 db1 := by
  intro m
  obtain ⟨e2, he2⟩ := h32 m
  obtain ⟨e1, he1⟩ := h21 m
  exact ⟨e1 ++ e2, by rw [he2, he1, List.append_assoc]⟩

theorem rowsExtend_setTable_append (db : DB) (n : String) (x : Nat)
    (l : List (Nat × Row)) :
    rowsExtend (db.setTable n ⟨x, (db.table n).rows ++ l⟩) db := by
  intro m
  by_cases h : m = n
  · subst h
    rw [DB.table_setTable_self]
    exact ⟨l, rfl⟩
  · rw [DB.table_setTable_ne _ h]
    exact ⟨[], (List.append_nil _).symm⟩

theorem hasId_of_rowsExtend {db2 db1 : DB} (h : rowsExtend db2 db1)
    (m : String) (i : Nat) (hi : (db1.table m).hasId i = true) :
    (db2.table m).hasId i = true := by
  obtain ⟨ext, he⟩ := h m
  rw [Table.hasId] at hi ⊢
  rw [he, List.any_append, hi]
  rfl

theorem mem_rows_of_rowsExtend {db2 db1 : DB} (h : rowsExtend db2 db1)
    (m : String) (q : Nat × Row) (hq : q ∈ (db1.table m).rows) :
    q ∈ (db2.table m).rows := by
  obtain ⟨ext, he⟩ := h m
  rw [he]
  exact List.mem_append_left ext hq

theorem ManyTargetOk_mono (d : ManyToManyDesc) {db2 db1 : DB}
    (h : rowsExtend db2 db1) :
    ∀ nv, ManyTargetOk d db1 nv → ManyTargetOk d db2 nv := by
  intro nv
  cases nv with
  | byId i => exact hasId_of_rowsExtend h _ i
  | byValue inp =>
    cases inp with
    | mk ed reg2 cplain oneRel manyRel => exact id

/-! ## Claim theorems -/

/-- C9 (counterexample): the claim that every `one_to_many` entry uses the
keys `model` and `linked_field` and every `many_to_many` entry the keys
`model`, `second_model` and `linked_fields` is false of the configuration
`app.py` actually declares: the `dorm` entry has no key `model`, and the
`courses` entry has no key `second_model`. -/
theorem c9_relation_config_counterexample :
    "model" ∉ ((((relatedKlsEntryKeys.lookup "one_to_many").getD []).lookup "dorm").getD [])
      ∧
    "second_model" ∉
      ((((relatedKlsEntryKeys.lookup "many_to_many").getD []).lookup "courses").getD []) := by
  decide

/-- C9 (amended): the declarative relation configuration uses, in its
`one_to_many` entry, the keys `model_kls` and `linked_field`, and in its
`many_to_many` entry the keys `model_kls`, `second_kls` and
`linked_fields`, the latter holding the ordered pair
`(local_col, target_col) = (students_id, courses_id)`. -/
theorem c9_relation_config_keys :
    relatedKlsEntryKeys.lookup "one_to_many"
      = some [("dorm", ["model_kls", "linked_field"])] ∧
    relatedKlsEntryKeys.lookup "many_to_many"
      = some [("courses", ["model_kls", "second_kls", "linked_fields"])] ∧
    studentRelatedKls.many_to_many.lookup "courses"
      = some ⟨coursesDesc, studentsCoursesDesc, ("students_id", "courses_id")⟩ := by
  decide

/-- C10: two `/dorms/extra` queries differing only in `show_all_students`
select the same dorm rows — the handler pops `show_all_students` before
building the `DormsGet` filter, and the flag only feeds the `_rel`
argument of the serializer. -/
theorem c10_show_all_students_does_not_filter (db : DB) (q1 q2 : DormsGetExtra)
    (h : q1.name = q2.name) :
    dormRowsSelected q1 db = dormRowsSelected q2 db ∧
    get_dorm_extra q1 db = (dormRowsSelected q1 db).map
      (fun r => serialize db appSerReg appIdField "dorms" r.1
        (q1.show_all_students.getD false)) := by
  refine ⟨?_, rfl⟩
  simp [dormRowsSelected, h]

/-- Witness for C10 at a concrete database and a concrete pair of queries
differing only in `show_all_students`. -/
theorem c10_witness :
    dormRowsSelected ⟨some "North", some true⟩ dbOne
      = dormRowsSelected ⟨some "North", none⟩ dbOne :=
  (c10_show_all_students_does_not_filter dbOne
    ⟨some "North", some true⟩ ⟨some "North", none⟩ rfl).1

/-- C2: a top-level `create` or `update` is transactional — when it fails,
the database handed back is the one from before the call (every write made
within the call is rolled back), and when it succeeds the committed state
is exactly the state in which the whole relation graph resolved. -/
theorem c2_transaction_rollback (inp : CreateInput) (db : DB)
    (desc : EntityDescriptor) (reg : RelatedKls) (plain : Row)
    (oneRel : List (String × NestedVal)) (manyRel : List (String × List NestedVal))
    (ff : Row) :
    (∀ e, (create inp db).1 = .error e → (create inp db).2 = db) ∧
    (∀ pid, (create inp db).1 = .ok pid →
      createRaw inp db = .ok (pid, (create inp db).2)) ∧
    (∀ e, (update desc reg plain oneRel manyRel ff db).1 = .error e →
      (update desc reg plain oneRel manyRel ff db).2 = db) ∧
    (∀ pid, (update desc reg plain oneRel manyRel ff db).1 = .ok pid →
      updateRaw desc reg plain oneRel manyRel ff db
        = .ok (pid, (update desc reg plain oneRel manyRel ff db).2)) := by
  refine ⟨?_, ?_, ?_, ?_⟩
  · intro e h
    cases hc : createRaw inp db with
    | error e2 => simp [create, hc]
    | ok v => simp [create, hc] at h
  · intro pid h
    cases hc : createRaw inp db with
    | error e2 => simp [create, hc] at h
    | ok v =>
      obtain ⟨pid2, db2⟩ := v
      simp [create, hc] at h ⊢
      exact h
  · intro e h
    cases hc : updateRaw desc reg plain oneRel manyRel ff db with
    | error e2 => simp [update, hc]
    | ok v => simp [update, hc] at h
  · intro pid h
    cases hc : updateRaw desc reg plain oneRel manyRel ff db with
    | error e2 => simp [update, hc] at h
    | ok v =>
      obtain ⟨pid2, db2⟩ := v
      simp [update, hc] at h ⊢
      exact h

/-- Witness for C2: a `create` whose `dorm` relation links a missing dorm
and an `update` whose filter matches nothing both fail and leave the
database exactly as it was. -/
theorem c2_witness :
    (create (.mk studentsDesc studentRelatedKls [("name", .vstr "Eve")]
        [("dorm", .byId 7)] []) dbOne).2 = dbOne ∧
    (update studentsDesc studentRelatedKls [("name", .vstr "Y")] [] []
        [("id", .vint 9)] dbOne).2 = dbOne :=
  ⟨(c2_transaction_rollback
      (.mk studentsDesc studentRelatedKls [("name", .vstr "Eve")] [("dorm", .byId 7)] [])
      dbOne studentsDesc studentRelatedKls [("name", .vstr "Y")] [] []
      [("id", .vint 9)]).1 .NotFoundError rfl,
   (c2_transaction_rollback
      (.mk studentsDesc studentRelatedKls [("name", .vstr "Eve")] [("dorm", .byId 7)] [])
      dbOne studentsDesc studentRelatedKls [("name", .vstr "Y")] [] []
      [("id", .vint 9)]).2.2.1 .NotFoundError rfl⟩

/-- C7: an `update` whose filter matches no stored entity fails with
`NotFoundError`, and one whose filter matches more than one entity fails
with `AmbiguousUpdateError` (single-entity semantics, the caller having no
bulk flag to request otherwise); in both cases nothing is written. -/
theorem c7_update_error_cases (desc : EntityDescriptor) (reg : RelatedKls)
    (plain : Row) (oneRel : List (String × NestedVal))
    (manyRel : List (String × List NestedVal)) (ff : Row) (db : DB) :
    (selectRows desc ff db = [] →
      update desc reg plain oneRel manyRel ff db = (.error .NotFoundError, db)) ∧
    (∀ r1 r2 rest, selectRows desc ff db = r1 :: r2 :: rest →
      update desc reg plain oneRel manyRel ff db
        = (.error .AmbiguousUpdateError, db)) := by
  constructor
  · intro h
    simp [update, updateRaw, h]
  · intro r1 r2 rest h
    simp [update, updateRaw, h]

/-- Witness for C7: a filter matching no student fails with
`NotFoundError`; a filter matching two students fails with
`AmbiguousUpdateError`. -/
theorem c7_witness :
    update studentsDesc RelatedKls.empty [("name", .vstr "Y")] [] []
        [("id", .vint 9)] dbOne = (.error .NotFoundError, dbOne) ∧
    update studentsDesc RelatedKls.empty [("name", .vstr "Y")] [] []
        [("name", .vstr "Ada")] dbTwo = (.error .AmbiguousUpdateError, dbTwo) :=
  ⟨(c7_update_error_cases studentsDesc RelatedKls.empty [("name", .vstr "Y")] [] []
      [("id", .vint 9)] dbOne).1 rfl,
   (c7_update_error_cases studentsDesc RelatedKls.empty [("name", .vstr "Y")] [] []
      [("name", .vstr "Ada")] dbTwo).2
     (1, [("name", .vstr "Ada"), ("is_admin", .vbool false)])
     (3, [("name", .vstr "Ada"), ("is_admin", .vbool true)]) [] rfl⟩

/-- C6: `get_objects` selection is exactly the conjunction of equality
constraints from the filter's populated fields — a row is selected iff it
is stored and satisfies every populated constraint, an empty filter selects
every stored row, and the result of `get_objects` is always the (possibly
empty) serialization of the selection, never an error. -/
theorem c6_filter_conjunction (desc : EntityDescriptor) (sreg : SerReg)
    (idf : String → String) (flt : Row) (rel : Bool) (db : DB) :
    (∀ i r, (i, r) ∈ selectRows desc flt db ↔
      ((i, r) ∈ (db.table desc.table_name).rows ∧
        ∀ kv ∈ flt, if kv.1 = desc.identity_field then kv.2 = Val.vint i
                    else r.col kv.1 = some kv.2)) ∧
    selectRows desc [] db = (db.table desc.table_name).rows ∧
    get_objects desc sreg idf flt rel db
      = (selectRows desc flt db).map
          (fun q => serialize db sreg idf desc.table_name q.1 rel) := by
  refine ⟨?_, ?_, rfl⟩
  · intro i r
    simp [selectRows, List.mem_filter, rowMatches, List.all_eq_true]
  · simp [selectRows, rowMatches]

/-- C1: round trip — creating from an input that populates no relation
fields succeeds with the table's next identity, and `get_objects` filtered
by exactly that identity returns one value tree: the assigned identity
followed by precisely the input's populated columns. -/
theorem c1_round_trip (desc : EntityDescriptor) (reg : RelatedKls) (sreg : SerReg)
    (idf : String → String) (plain : Row) (db : DB)
    (hwf : ∀ q ∈ (db.table desc.table_name).rows,
      q.1 < (db.table desc.table_name).nextId)
    (hsreg : sreg.lookup desc.table_name = none)
    (hidf : idf desc.table_name = desc.identity_field) :
    (create (.mk desc reg plain [] []) db).1
      = .ok ((db.table desc.table_name).nextId) ∧
    get_objects desc sreg idf
        [(desc.identity_field, Val.vint ((db.table desc.table_name).nextId))] true
        (create (.mk desc reg plain [] []) db).2
      = [Tree.obj ((desc.identity_field,
            Tree.atom (Val.vint ((db.table desc.table_name).nextId)))
          :: plain.map (fun kv => (kv.1, Tree.atom kv.2)))] := by
  have hcr : createRaw (.mk desc reg plain [] []) db
      = .ok ((db.table desc.table_name).nextId,
          db.setTable desc.table_name
            ⟨(db.table desc.table_name).nextId + 1,
             (db.table desc.table_name).rows
               ++ [((db.table desc.table_name).nextId, plain)]⟩) := rfl
  have hc : create (.mk desc reg plain [] []) db
      = (.ok ((db.table desc.table_name).nextId),
          db.setTable desc.table_name
            ⟨(db.table desc.table_name).nextId + 1,
             (db.table desc.table_name).rows
               ++ [((db.table desc.table_name).nextId, plain)]⟩) := by
    simp [create, hcr]
  refine ⟨by simp [hc], ?_⟩
  rw [hc]
  have hfresh : ∀ q ∈ (db.table desc.table_name).rows,
      q.1 ≠ (db.table desc.table_name).nextId :=
    fun q hq => Nat.ne_of_lt (hwf q hq)
  have hsel : selectRows desc
      [(desc.identity_field, Val.vint ((db.table desc.table_name).nextId))]
      (db.setTable desc.table_name
        ⟨(db.table desc.table_name).nextId + 1,
         (db.table desc.table_name).rows
           ++ [((db.table desc.table_name).nextId, plain)]⟩)
      = [((db.table desc.table_name).nextId, plain)] := by
    rw [selectRows, DB.table_setTable_self]
    rw [List.filter_append]
    have hold : ((db.table desc.table_name).rows).filter
        (fun q => rowMatches desc
          [(desc.identity_field, Val.vint ((db.table desc.table_name).nextId))] q.1 q.2)
        = [] := by
      rw [List.filter_eq_nil_iff]
      intro q hq
      simp [rowMatches, (hfresh q hq).symm]
    rw [hold]
    simp [rowMatches]
  rw [get_objects, hsel]
  rw [List.map_singleton]
  rw [serialize, if_pos rfl]
  rw [serializeVisit]
  have hlook : List.lookup ((db.table desc.table_name).nextId)
      ((db.setTable desc.table_name
        ⟨(db.table desc.table_name).nextId + 1,
         (db.table desc.table_name).rows
           ++ [((db.table desc.table_name).nextId, plain)]⟩).table
            desc.table_name).rows
      = some plain := by
    rw [DB.table_setTable_self]
    rw [lookup_ids_append hfresh]
    simp [List.lookup]
  rw [hlook]
  have hTab : ((db.setTable desc.table_name
      ⟨(db.table desc.table_name).nextId + 1,
       (db.table desc.table_name).rows
         ++ [((db.table desc.table_name).nextId, plain)]⟩).table
          desc.table_name).rows.lookup ((db.table desc.table_name).nextId)
      = some plain := hlook
  simp [hsreg, hidf, serializeFields]

/-- Witness for C1: creating a course on the empty database and reading it
back by the assigned identity yields exactly the input columns plus the
identity. -/
theorem c1_witness :
    (create (.mk coursesDesc RelatedKls.empty
        [("name", .vstr "X"), ("faculty", .vstr "F"), ("major", .vstr "M")] [] []) []).1
      = .ok 1 ∧
    get_objects coursesDesc appSerReg appIdField [("id", Val.vint 1)] true
        (create (.mk coursesDesc RelatedKls.empty
          [("name", .vstr "X"), ("faculty", .vstr "F"), ("major", .vstr "M")] [] []) []).2
      = [Tree.obj [("id", Tree.atom (Val.vint 1)),
          ("name", Tree.atom (Val.vstr "X")), ("faculty", Tree.atom (Val.vstr "F")),
          ("major", Tree.atom (Val.vstr "M"))]] := by
  have h := c1_round_trip coursesDesc RelatedKls.empty appSerReg appIdField
    [("name", .vstr "X"), ("faculty", .vstr "F"), ("major", .vstr "M")] []
    (by intro q hq; simp [DB.table] at hq) rfl rfl
  simpa [DB.table, coursesDesc] using h

/-- C8: a plain-field `update` matching exactly one row changes only that
row, and in it only the explicitly assigned columns; every other table,
every other row, and every unassigned column keep their previous value. -/
theorem c8_update_frame (desc : EntityDescriptor) (reg : RelatedKls)
    (plain : Row) (ff : Row) (db : DB) (i0 : Nat) (r0 : Row)
    (hsel : selectRows desc ff db = [(i0, r0)]) :
    (update desc reg plain [] [] ff db).1 = .ok i0 ∧
    (∀ n, n ≠ desc.table_name →
      ((update desc reg plain [] [] ff db).2).table n = db.table n) ∧
    (((update desc reg plain [] [] ff db).2).table desc.table_name).nextId
      = (db.table desc.table_name).nextId ∧
    (((update desc reg plain [] [] ff db).2).table desc.table_name).rows
      = (db.table desc.table_name).rows.map
          (fun q => if q.1 = i0 then (q.1, applyAssigns q.2 plain) else q) ∧
    (∀ r k, k ∉ plain.map Prod.fst → (applyAssigns r plain).col k = r.col k) := by
  have hur : updateRaw desc reg plain [] [] ff db
      = .ok (i0, db.setTable desc.table_name
          ⟨(db.table desc.table_name).nextId,
           (db.table desc.table_name).rows.map
             (fun q => if q.1 = i0 then (q.1, applyAssigns q.2 plain) else q)⟩) := by
    rw [updateRaw, hsel]
    rfl
  have hu : update desc reg plain [] [] ff db
      = (.ok i0, db.setTable desc.table_name
          ⟨(db.table desc.table_name).nextId,
           (db.table desc.table_name).rows.map
             (fun q => if q.1 = i0 then (q.1, applyAssigns q.2 plain) else q)⟩) := by
    simp [update, hur]
  refine ⟨by simp [hu], ?_, ?_, ?_, ?_⟩
  · intro n hn
    rw [hu]
    exact DB.table_setTable_ne db hn _
  · rw [hu, DB.table_setTable_self]
  · rw [hu, DB.table_setTable_self]
  · intro r k hk
    exact applyAssigns_col_of_not_mem plain r k hk

/-- Witness for C8: updating student `id = 3` with `name = "Y"` in a
two-student database rewrites only that student's `name`: the other
student, the `is_admin` column, and the `dorms` table keep their values. -/
theorem c8_witness :
    (update studentsDesc RelatedKls.empty [("name", .vstr "Y")] [] []
        [("id", .vint 3)] dbUpd).1 = .ok 3 ∧
    ((update studentsDesc RelatedKls.empty [("name", .vstr "Y")] [] []
        [("id", .vint 3)] dbUpd).2).table "dorms" = dbUpd.table "dorms" ∧
    (((update studentsDesc RelatedKls.empty [("name", .vstr "Y")] [] []
        [("id", .vint 3)] dbUpd).2).table "students").rows
      = [(1, [("name", .vstr "Ada"), ("is_admin", .vbool false)]),
         (3, [("name", .vstr "Y"), ("is_admin", .vbool true)])] ∧
    (applyAssigns [("name", .vstr "Bob"), ("is_admin", .vbool true)]
        [("name", .vstr "Y")]).col "is_admin" = some (.vbool true) := by
  have h := c8_update_frame studentsDesc RelatedKls.empty [("name", .vstr "Y")] 
    [("id", .vint 3)] dbUpd 3 [("name", .vstr "Bob"), ("is_admin", .vbool true)] rfl
  exact ⟨h.1, h.2.1 "dorms" (by decide), h.2.2.2.1.trans (by rfl),
    (h.2.2.2.2 [("name", .vstr "Bob"), ("is_admin", .vbool true)] "is_admin"
      (by decide)).trans (by rfl)⟩

/-- C3: creating a parent whose `one_to_many` field holds a fully-specified
nested child (no identity) creates exactly one new child row and sets the
parent's `linked_field` to that child's identity; creating with a child
that supplies only an identity creates zero child rows and links the same
way. -/
theorem c3_one_to_many_create (desc : EntityDescriptor) (reg : RelatedKls)
    (d : OneToManyDesc) (f : String) (plain cplain : Row) (i : Nat) (db : DB)
    (hreg : reg.one_to_many.lookup f = some d)
    (hne : d.model_kls.table_name ≠ desc.table_name)
    (hwf : ∀ q ∈ (db.table desc.table_name).rows,
      q.1 < (db.table desc.table_name).nextId) :
    ((create (.mk desc reg plain
          [(f, .byValue (.mk d.model_kls RelatedKls.empty cplain [] []))] []) db).1
        = .ok ((db.table desc.table_name).nextId) ∧
     (((create (.mk desc reg plain
          [(f, .byValue (.mk d.model_kls RelatedKls.empty cplain [] []))] []) db).2.table
        d.model_kls.table_name).rows
        = (db.table d.model_kls.table_name).rows
            ++ [((db.table d.model_kls.table_name).nextId, cplain)]) ∧
     (((create (.mk desc reg plain
          [(f, .byValue (.mk d.model_kls RelatedKls.empty cplain [] []))] []) db).2.table
        desc.table_name).rows
        = (db.table desc.table_name).rows
            ++ [((db.table desc.table_name).nextId,
                 plain.setCol d.linked_field
                   (Val.vint ((db.table d.model_kls.table_name).nextId)))])) ∧
    ((db.table d.model_kls.table_name).hasId i = true →
      ((create (.mk desc reg plain [(f, .byId i)] []) db).1
          = .ok ((db.table desc.table_name).nextId) ∧
       (create (.mk desc reg plain [(f, .byId i)] []) db).2.table d.model_kls.table_name
          = db.table d.model_kls.table_name ∧
       (((create (.mk desc reg plain [(f, .byId i)] []) db).2.table desc.table_name).rows
          = (db.table desc.table_name).rows
              ++ [((db.table desc.table_name).nextId,
                   plain.setCol d.linked_field (Val.vint i))]))) := by
  have hfresh : ∀ q ∈ (db.table desc.table_name).rows,
      q.1 ≠ (db.table desc.table_name).nextId :=
    fun q hq => Nat.ne_of_lt (hwf q hq)
  have hPC : desc.table_name ≠ d.model_kls.table_name := fun hh => hne hh.symm
  have hneAll : ∀ (dbx : DB) (t : Table),
      (dbx.setTable desc.table_name t).table d.model_kls.table_name
        = dbx.table d.model_kls.table_name :=
    fun dbx t => DB.table_setTable_ne dbx hne t
  have hPCAll : ∀ (dbx : DB) (t : Table),
      (dbx.setTable d.model_kls.table_name t).table desc.table_name
        = dbx.table desc.table_name :=
    fun dbx t => DB.table_setTable_ne dbx hPC t
  have hsco : ∀ (k : String) (v : Val),
      (Table.setColOf
        ⟨(db.table desc.table_name).nextId + 1,
         (db.table desc.table_name).rows ++ [((db.table desc.table_name).nextId, plain)]⟩
        ((db.table desc.table_name).nextId) k v).rows
        = (db.table desc.table_name).rows
            ++ [((db.table desc.table_name).nextId, plain.setCol k v)] :=
    fun k v => setColOf_rows_append_fresh _ _ _ k v hfresh
  constructor
  · refine ⟨?_, ?_, ?_⟩ <;>
      simp [create, createRaw, resolveOne, resolveMany, resolveNested, hreg,
        hneAll, hPCAll, DB.table_setTable_self, hsco]
  · intro hhas
    refine ⟨?_, ?_, ?_⟩ <;>
      simp [create, createRaw, resolveOne, resolveMany, resolveNested, hreg, hhas,
        hneAll, hPCAll, DB.table_setTable_self, hsco]

/-- Witness for C3: creating a student with a fully-specified nested dorm
adds exactly one dorm row and links `dorm_id` to it; creating a student
with `dorm` given by identity adds no dorm row and links the same way. -/
theorem c3_witness :
    ((create (.mk studentsDesc studentRelatedKls [("name", .vstr "Eve")]
        [("dorm", .byValue (.mk dormsDesc RelatedKls.empty [("name", .vstr "South")] [] []))]
        []) dbOne).2.table "dorms").rows
      = [(1, [("name", .vstr "North")]), (2, [("name", .vstr "South")])] ∧
    (create (.mk studentsDesc studentRelatedKls [("name", .vstr "Eve")]
        [("dorm", .byId 1)] []) dbOne).2.table "dorms" = dbOne.table "dorms" := by
  have h := c3_one_to_many_create studentsDesc studentRelatedKls
    ⟨dormsDesc, "dorm_id"⟩ "dorm" [("name", .vstr "Eve")]
    [("name", .vstr "South")] 1 dbOne rfl (by decide)
    (by decide)
  exact ⟨h.1.2.1.trans (by rfl), (h.2 (by rfl)).2.1⟩

theorem joinRowsFor_length (d : ManyToManyDesc) (pid : Nat) :
    ∀ (start : Nat) (ids : List Nat),
      (joinRowsFor d pid start ids).length = ids.length := by
  intro start ids
  induction ids generalizing start with
  | nil => rfl
  | cons t rest ih => simp [joinRowsFor, ih]

theorem resolveManyVals_resolves (d : ManyToManyDesc) (pid : Nat) :
    ∀ (nvs : List NestedVal) (db : DB),
      (∀ nv ∈ nvs, ManyTargetOk d db nv) →
      ∃ db2 tids,
        resolveManyVals d pid nvs db = .ok db2 ∧
        tids.length = nvs.length ∧
        (db2.table d.second_kls.table_name).rows
          = (db.table d.second_kls.table_name).rows
              ++ joinRowsFor d pid ((db.table d.second_kls.table_name).nextId) tids ∧
        rowsExtend db2 db ∧
        (∀ (k : Nat) (i : Nat), nvs[k]? = some (NestedVal.byId i) → tids[k]? = some i) ∧
        (∀ (k : Nat) (ed : EntityDescriptor) (reg2 : RelatedKls) (cplain : Row),
          nvs[k]? = some (NestedVal.byValue (.mk ed reg2 cplain [] [])) →
          ∃ tid, tids[k]? = some tid ∧
            (tid, cplain) ∈ (db2.table ed.table_name).rows) := by
  intro nvs
  induction nvs with
  | nil =>
    intro db h
    refine ⟨db, [], rfl, rfl, by simp [joinRowsFor], rowsExtend_refl db, ?_, ?_⟩
    · intro k i hk
      simp at hk
    · intro k ed reg2 cplain hk
      simp at hk
  | cons nv rest ih =>
    intro db h
    have hnv := h nv (List.mem_cons_self nv rest)
    have hrest0 : ∀ x ∈ rest, ManyTargetOk d db x :=
      fun x hx => h x (List.mem_cons_of_mem nv hx)
    cases nv with
    | byId i =>
      have hhas : (db.table d.model_kls.table_name).hasId i = true := hnv
      have hstep : resolveManyVals d pid (NestedVal.byId i :: rest) db
          = resolveManyVals d pid rest
              (db.setTable d.second_kls.table_name
                ⟨(db.table d.second_kls.table_name).nextId + 1,
                 (db.table d.second_kls.table_name).rows
                   ++ [((db.table d.second_kls.table_name).nextId,
                        [(d.linked_fields.1, Val.vint pid),
                         (d.linked_fields.2, Val.vint i)])]⟩) := by
        simp [resolveManyVals, resolveNested, hhas]
      have hext1 : rowsExtend
          (db.setTable d.second_kls.table_name
            ⟨(db.table d.second_kls.table_name).nextId + 1,
             (db.table d.second_kls.table_name).rows
               ++ [((db.table d.second_kls.table_name).nextId,
                    [(d.linked_fields.1, Val.vint pid),
                     (d.linked_fields.2, Val.vint i)])]⟩) db :=
        rowsExtend_setTable_append db _ _ _
      have hrest1 : ∀ x ∈ rest,
          ManyTargetOk d
            (db.setTable d.second_kls.table_name
              ⟨(db.table d.second_kls.table_name).nextId + 1,
               (db.table d.second_kls.table_name).rows
                 ++ [((db.table d.second_kls.table_name).nextId,
                      [(d.linked_fields.1, Val.vint pid),
                       (d.linked_fields.2, Val.vint i)])]⟩) x :=
        fun x hx => ManyTargetOk_mono d hext1 x (hrest0 x hx)
      obtain ⟨db2, tids, hres, hlen, hrows, hext2, hbyid, hbyval⟩ := ih _ hrest1
      refine ⟨db2, i :: tids, hstep.trans hres, by simp [hlen], ?_,
        rowsExtend_trans hext2 hext1, ?_, ?_⟩
      · rw [hrows, DB.table_setTable_self]
        simp only [joinRowsFor, List.append_assoc, List.singleton_append]
      · intro k j hk
        cases k with
        | zero =>
          simp only [List.getElem?_cons_zero, Option.some.injEq,
            NestedVal.byId.injEq] at hk
          simp [hk]
        | succ k => simpa using hbyid k j (by simpa using hk)
      · intro k ed reg2 cplain hk
        cases k with
        | zero => simp at hk
        | succ k => simpa using hbyval k ed reg2 cplain (by simpa using hk)
    | byValue inp =>
      cases inp with
      | mk ed reg2 cplain oneRel manyRel =>
        obtain ⟨hone, hmany, hTne⟩ := hnv
        subst hone
        subst hmany
        have hJne : ∀ t : Table,
            (db.setTable ed.table_name t).table d.second_kls.table_name
              = db.table d.second_kls.table_name :=
          fun t => DB.table_setTable_ne db (Ne.symm hTne) t
        have hstep : resolveManyVals d pid
            (NestedVal.byValue (.mk ed reg2 cplain [] []) :: rest) db
            = resolveManyVals d pid rest
                ((db.setTable ed.table_name
                    ⟨(db.table ed.table_name).nextId + 1,
                     (db.table ed.table_name).rows
                       ++ [((db.table ed.table_name).nextId, cplain)]⟩).setTable
                  d.second_kls.table_name
                  ⟨(db.table d.second_kls.table_name).nextId + 1,
                   (db.table d.second_kls.table_name).rows
                     ++ [((db.table d.second_kls.table_name).nextId,
                          [(d.linked_fields.1, Val.vint pid),
                           (d.linked_fields.2,
                            Val.vint ((db.table ed.table_name).nextId))])]⟩) := by
          simp [resolveManyVals, resolveNested, createRaw, resolveOne, resolveMany,
            hJne]
        have hext1 : rowsExtend
            ((db.setTable ed.table_name
                ⟨(db.table ed.table_name).nextId + 1,
                 (db.table ed.table_name).rows
                   ++ [((db.table ed.table_name).nextId, cplain)]⟩).setTable
              d.second_kls.table_name
              ⟨(db.table d.second_kls.table_name).nextId + 1,
               (db.table d.second_kls.table_name).rows
                 ++ [((db.table d.second_kls.table_name).nextId,
                      [(d.linked_fields.1, Val.vint pid),
                       (d.linked_fields.2,
                        Val.vint ((db.table ed.table_name).nextId))])]⟩) db := by
          intro m
          by_cases hmJ : m = d.second_kls.table_name
          · subst hmJ
            rw [DB.table_setTable_self]
            exact ⟨[((db.table d.second_kls.table_name).nextId,
              [(d.linked_fields.1, Val.vint pid),
               (d.linked_fields.2, Val.vint ((db.table ed.table_name).nextId))])], rfl⟩
          · rw [DB.table_setTable_ne _ hmJ]
            by_cases hme : m = ed.table_name
            · subst hme
              rw [DB.table_setTable_self]
              exact ⟨[((db.table ed.table_name).nextId, cplain)], rfl⟩
            · rw [DB.table_setTable_ne _ hme]
              exact ⟨[], (List.append_nil _).symm⟩
        have hrest1 := fun x hx => ManyTargetOk_mono d hext1 x (hrest0 x hx)
        obtain ⟨db2, tids, hres, hlen, hrows, hext2, hbyid, hbyval⟩ := ih _ hrest1
        refine ⟨db2, (db.table ed.table_name).nextId :: tids, hstep.trans hres,
          by simp [hlen], ?_, rowsExtend_trans hext2 hext1, ?_, ?_⟩
        · rw [hrows, DB.table_setTable_self]
          simp only [joinRowsFor, List.append_assoc, List.singleton_append]
        · intro k j hk
          cases k with
          | zero => simp at hk
          | succ k => simpa using hbyid k j (by simpa using hk)
        · intro k ed2 reg3 cplain2 hk
          cases k with
          | zero =>
            simp only [List.getElem?_cons_zero, Option.some.injEq,
              NestedVal.byValue.injEq, CreateInput.mk.injEq, and_true] at hk
            obtain ⟨hed, hreg3, hcpl⟩ := hk
            subst hed
            subst hreg3
            subst hcpl
            refine ⟨(db.table ed.table_name).nextId, by simp, ?_⟩
            apply mem_rows_of_rowsExtend hext2
            rw [DB.table_setTable_ne _ hTne, DB.table_setTable_self]
            exact List.mem_append_right _ (List.mem_singleton.mpr rfl)
          | succ k => simpa using hbyval k ed2 reg3 cplain2 (by simpa using hk)

/-- C4: creating a parent whose `many_to_many` field holds a sequence of
`n` nested targets — each either an existing identity or a fully-specified
nested instance to create first — inserts exactly `n` join rows: there is a
list of resolved target identities, one per element, and the join table
gains precisely the rows `(parent.identity, target.identity)` for them; a
by-identity element resolves to the supplied identity, a by-value element
to a freshly created row carrying the nested columns.  Two separate calls
linking the same parent-target pair insert two join rows — no implicit
deduplication. -/
theorem c4_many_to_many_create (desc : EntityDescriptor) (reg : RelatedKls)
    (d : ManyToManyDesc) (f : String) (plain : Row) (nvs : List NestedVal)
    (db : DB)
    (hreg : reg.many_to_many.lookup f = some d)
    (hJP : d.second_kls.table_name ≠ desc.table_name)
    (htargets : ∀ nv ∈ nvs, ManyTargetOk d db nv) :
    ∃ tids : List Nat,
      (create (.mk desc reg plain [] [(f, nvs)]) db).1
        = .ok ((db.table desc.table_name).nextId) ∧
      tids.length = nvs.length ∧
      ((create (.mk desc reg plain [] [(f, nvs)]) db).2.table
          d.second_kls.table_name).rows
        = (db.table d.second_kls.table_name).rows
            ++ joinRowsFor d ((db.table desc.table_name).nextId)
                 ((db.table d.second_kls.table_name).nextId) tids ∧
      ((create (.mk desc reg plain [] [(f, nvs)]) db).2.table
          d.second_kls.table_name).rows.length
        = (db.table d.second_kls.table_name).rows.length + nvs.length ∧
      (∀ (k : Nat) (i : Nat), nvs[k]? = some (NestedVal.byId i) → tids[k]? = some i) ∧
      (∀ (k : Nat) (ed : EntityDescriptor) (reg2 : RelatedKls) (cplain : Row),
        nvs[k]? = some (NestedVal.byValue (.mk ed reg2 cplain [] [])) →
        ∃ tid, tids[k]? = some tid ∧
          (tid, cplain) ∈ ((create (.mk desc reg plain [] [(f, nvs)]) db).2.table
            ed.table_name).rows) ∧
      ((update studentsDesc studentRelatedKls [] [] [("courses", [.byId 1])]
          [("id", .vint 1)]
          ((update studentsDesc studentRelatedKls [] [] [("courses", [.byId 1])]
            [("id", .vint 1)] dbOne).2)).2.table "students_courses").rows
        = [(1, [("students_id", .vint 1), ("courses_id", .vint 1)]),
           (2, [("students_id", .vint 1), ("courses_id", .vint 1)])] := by
  have hext0 : rowsExtend
      (db.setTable desc.table_name
        ⟨(db.table desc.table_name).nextId + 1,
         (db.table desc.table_name).rows
           ++ [((db.table desc.table_name).nextId, plain)]⟩) db :=
    rowsExtend_setTable_append db _ _ _
  have htargets1 : ∀ nv ∈ nvs,
      ManyTargetOk d
        (db.setTable desc.table_name
          ⟨(db.table desc.table_name).nextId + 1,
           (db.table desc.table_name).rows
             ++ [((db.table desc.table_name).nextId, plain)]⟩) nv :=
    fun nv hnv => ManyTargetOk_mono d hext0 nv (htargets nv hnv)
  obtain ⟨db2, tids, hres, hlen, hrows, hext2, hbyid, hbyval⟩ :=
    resolveManyVals_resolves d ((db.table desc.table_name).nextId) nvs
      (db.setTable desc.table_name
        ⟨(db.table desc.table_name).nextId + 1,
         (db.table desc.table_name).rows
           ++ [((db.table desc.table_name).nextId, plain)]⟩) htargets1
  have hdb1J : (db.setTable desc.table_name
      ⟨(db.table desc.table_name).nextId + 1,
       (db.table desc.table_name).rows
         ++ [((db.table desc.table_name).nextId, plain)]⟩).table
        d.second_kls.table_name = db.table d.second_kls.table_name :=
    DB.table_setTable_ne db hJP _
  rw [hdb1J] at hrows
  have hcr : createRaw (.mk desc reg plain [] [(f, nvs)]) db
      = .ok ((db.table desc.table_name).nextId, db2) := by
    simp [createRaw, resolveOne, resolveMany, hreg, hres]
  have h2 : (create (.mk desc reg plain [] [(f, nvs)]) db).2 = db2 := by
    simp [create, hcr]
  refine ⟨tids, by simp [create, hcr], hlen, ?_, ?_, hbyid, ?_, rfl⟩
  · rw [h2, hrows]
  · rw [h2, hrows]
    simp [joinRowsFor_length, hlen]
  · intro k ed reg2 cplain hk
    obtain ⟨tid, htid, hmem⟩ := hbyval k ed reg2 cplain hk
    refine ⟨tid, htid, ?_⟩
    rw [h2]
    exact hmem

/-- Witness for C4: creating a student whose `courses` sequence holds one
fully-specified course to create and one existing course by identity
inserts exactly two join rows — `(students_id = 2, courses_id = 2)` for the
newly created course and `(students_id = 2, courses_id = 1)` for the linked
one — and the new course row carries the nested columns. -/
theorem c4_witness :
    (create (.mk studentsDesc studentRelatedKls [("name", .vstr "Eve")] []
        [("courses",
          [NestedVal.byValue (.mk coursesDesc RelatedKls.empty
             [("name", .vstr "Chem"), ("faculty", .vstr "Sci"), ("major", .vstr "M")]
             [] []),
           NestedVal.byId 1])]) dbOne).1 = .ok 2 ∧
    ((create (.mk studentsDesc studentRelatedKls [("name", .vstr "Eve")] []
        [("courses",
          [NestedVal.byValue (.mk coursesDesc RelatedKls.empty
             [("name", .vstr "Chem"), ("faculty", .vstr "Sci"), ("major", .vstr "M")]
             [] []),
           NestedVal.byId 1])]) dbOne).2.table "students_courses").rows
      = [(1, [("students_id", .vint 2), ("courses_id", .vint 2)]),
         (2, [("students_id", .vint 2), ("courses_id", .vint 1)])] ∧
    ((create (.mk studentsDesc studentRelatedKls [("name", .vstr "Eve")] []
        [("courses",
          [NestedVal.byValue (.mk coursesDesc RelatedKls.empty
             [("name", .vstr "Chem"), ("faculty", .vstr "Sci"), ("major", .vstr "M")]
             [] []),
           NestedVal.byId 1])]) dbOne).2.table "courses").rows
      = [(1, [("name", .vstr "Math"), ("faculty", .vstr "Sci"), ("major", .vstr "M")]),
         (2, [("name", .vstr "Chem"), ("faculty", .vstr "Sci"), ("major", .vstr "M")])] := by
  obtain ⟨tids, h1, hlen, hrows, hlen2, hbyid, hbyval, hnd⟩ :=
    c4_many_to_many_create studentsDesc studentRelatedKls
      ⟨coursesDesc, studentsCoursesDesc, ("students_id", "courses_id")⟩ "courses"
      [("name", .vstr "Eve")]
      [NestedVal.byValue (.mk coursesDesc RelatedKls.empty
         [("name", .vstr "Chem"), ("faculty", .vstr "Sci"), ("major", .vstr "M")]
         [] []),
       NestedVal.byId 1] dbOne rfl (by decide)
      (by
        intro nv hnv
        simp only [List.mem_cons, List.not_mem_nil, or_false] at hnv
        rcases hnv with rfl | rfl
        · exact ⟨rfl, rfl, by decide⟩
        · exact rfl)
  exact ⟨h1, by rfl, by rfl⟩

/-- C5: serializing a student and a dorm that mutually embed each other
(the student's `dorm_id` points at the dorm, the dorm's `all_students`
points back) terminates with the dorm embedded exactly once and the
student never re-entered: the dorm's `all_students` back-reference is cut
by the traversal-path visited set, for every choice of identities and
column values. -/
theorem c5_cycle_safe_serialization (sid did : Nat) (sname dname : String)
    (adm : Bool) :
    serialize (dbAB sid did sname dname adm) appSerReg appIdField "students" sid true
      = Tree.obj [("id", .atom (.vint sid)), ("name", .atom (.vstr sname)),
          ("is_admin", .atom (.vbool adm)), ("dorm_id", .atom (.vint did)),
          ("courses", .arr []),
          ("dorm", Tree.obj [("id", .atom (.vint did)), ("name", .atom (.vstr dname)),
              ("all_students", .arr [])])] ∧
    (serialize (dbAB sid did sname dname adm) appSerReg appIdField "students" sid
        true).countKey "all_students" = 1 ∧
    (serialize (dbAB sid did sname dname adm) appSerReg appIdField "students" sid
        true).countKey "dorm_id" = 1 := by
  have h : serialize (dbAB sid did sname dname adm) appSerReg appIdField "students"
      sid true
      = Tree.obj [("id", .atom (.vint sid)), ("name", .atom (.vstr sname)),
          ("is_admin", .atom (.vbool adm)), ("dorm_id", .atom (.vint did)),
          ("courses", .arr []),
          ("dorm", Tree.obj [("id", .atom (.vint did)), ("name", .atom (.vstr dname)),
              ("all_students", .arr [])])] := by
    simp [serialize, serializeVisit, serializeFields, serializeList, serializeScalar,
      reverseIds, joinTargetIds, DB.allPairs, DB.table, Row.col, dbAB, appSerReg,
      appIdField, List.lookup, List.erase]
  refine ⟨h, ?_, ?_⟩
  · rw [h]
    rfl
  · rw [h]
    rfl

end PydanticSqlOrm
